import Mathlib

/-!
Verification of the extractor/assembler of `Bway_Scraper2.py`
(`scrape_weekly_show_data`, lines 29-138), shallowly embedded over
`List Char`.  The HTTP fetch and the Excel writer are out of scope; the
embedding starts from the page's flattened text (`text_content`, the
result of `soup.get_text()`), and models the `datetime.now()` calls made
while building records as a clock oracle `Nat → List Char` giving the
formatted timestamp returned by the k-th call.
-/

/-- Whitespace characters matched by the regex class in the source's
patterns (ASCII range of Python `\s`). -/
def isPySpace (c : Char) : Bool :=
  c = ' ' || c = '\t' || c = '\n' || c = '\r' || c = '\x0b' || c = '\x0c'

/-- Characters matched by the character class of digits and commas used in
the gross and attendance patterns. -/
def isDigitComma (c : Char) : Bool :=
  c.isDigit || c = ','

/-- Match a literal character sequence at the head of the input, returning
the remainder on success. -/
def matchLit : List Char → List Char → Option (List Char)
  | [], s => some s
  | _ :: _, [] => none
  | p :: ps, c :: cs => if p = c then matchLit ps cs else none

/-- Match the date token `\d{1,2}/\d{1,2}/\d{4}` at the head of the input
(the capture group of the week pattern, line 32).  Greedy matching of
`\d{1,2}` followed by `/` succeeds exactly when the maximal digit run has
length 1 or 2 and is followed by `/`; `\d{4}` takes exactly four digits.
Returns the captured text and the remainder. -/
def matchDateTok (s : List Char) : Option (List Char × List Char) :=
  let p1 := s.span Char.isDigit
  if p1.1.length = 1 ∨ p1.1.length = 2 then
    match p1.2 with
    | '/' :: r2 =>
      let p2 := r2.span Char.isDigit
      if p2.1.length = 1 ∨ p2.1.length = 2 then
        match p2.2 with
        | '/' :: r4 =>
          let y := r4.take 4
          if y.length = 4 ∧ y.all Char.isDigit then
            some (p1.1 ++ '/' :: p2.1 ++ '/' :: y, r4.drop 4)
          else none
        | _ => none
      else none
    | _ => none
  else none

/-- Match the token `\d+` at the head of the input (the capture group of
the shows pattern, line 33): the maximal nonempty digit run. -/
def matchIntTok (s : List Char) : Option (List Char × List Char) :=
  let p := s.span Char.isDigit
  if p.1.isEmpty then none else some (p.1, p.2)

/-- Match the token `[\d,]+` at the head of the input (the capture group
of the attendance pattern, line 35): the maximal nonempty run of digits
and commas. -/
def matchNumTok (s : List Char) : Option (List Char × List Char) :=
  let p := s.span isDigitComma
  if p.1.isEmpty then none else some (p.1, p.2)

/-- Match `\$?([\d,]+)` at the head of the input (the gross pattern's
tail, line 34).  If a dollar sign is present it is consumed outside the
capture; when no digit or comma follows the dollar sign, backtracking to
the empty `\$?` alternative also fails since `$` is not in the class. -/
def matchGrossTok : List Char → Option (List Char × List Char)
  | '$' :: r => matchNumTok r
  | s => matchNumTok s

/-- Try one full pattern at the head of the input: the literal label,
then `\s*`, then the capture-group token.  Mirrors the shape
`Label:\s*(token)` shared by all four patterns (lines 32-35). -/
def tryPat (label : List Char) (tok : List Char → Option (List Char × List Char))
    (s : List Char) : Option (List Char × List Char) :=
  match matchLit label s with
  | some r1 => tok (r1.dropWhile isPySpace)
  | none => none

/-- Scan the text left to right collecting all non-overlapping matches in
document order, as `re.findall` does (lines 38-41): on a match, continue
after its end; otherwise advance one character.  The fuel starts at the
text length; every match consumes at least its nonempty label, so fuel
never runs out before the text does. -/
def findAllAux (p : List Char → Option (List Char × List Char)) :
    Nat → List Char → List (List Char)
  | 0, _ => []
  | _ + 1, [] => []
  | fuel + 1, c :: cs =>
    match p (c :: cs) with
    | some (cap, rest) => cap :: findAllAux p fuel rest
    | none => findAllAux p fuel cs

/-- All captures of a label-anchored pattern over the text, in document
order. -/
def reFindAll (label : List Char) (tok : List Char → Option (List Char × List Char))
    (text : List Char) : List (List Char) :=
  findAllAux (tryPat label tok) text.length text

/-- Label of `week_pattern` (line 32). -/
def weekLabel : List Char := ("Week Ending:").toList

/-- Label of `shows_pattern` (line 33). -/
def showsLabel : List Char := ("Number of Shows:").toList

/-- Label of `gross_pattern` (line 34). -/
def grossLabel : List Char := ("Gross Gross:").toList

/-- Label of `attendance_pattern` (line 35). -/
def attendanceLabel : List Char := ("Total Attendance:").toList

/-- `weeks = re.findall(week_pattern, text_content)` (line 38). -/
def extractWeeks (text : List Char) : List (List Char) :=
  reFindAll weekLabel matchDateTok text

/-- `shows = re.findall(shows_pattern, text_content)` (line 39). -/
def extractShows (text : List Char) : List (List Char) :=
  reFindAll showsLabel matchIntTok text

/-- `gross = re.findall(gross_pattern, text_content)` (line 40). -/
def extractGross (text : List Char) : List (List Char) :=
  reFindAll grossLabel matchGrossTok text

/-- `attendance = re.findall(attendance_pattern, text_content)` (line 41). -/
def extractAttendance (text : List Char) : List (List Char) :=
  reFindAll attendanceLabel matchNumTok text

/-- Numeric value of a digit string (most significant digit first). -/
def digitsVal (l : List Char) : Nat :=
  l.foldl (fun n c => n * 10 + (c.toNat - ('0').toNat)) 0

/-- Model of Python `int(s)` as used at lines 118-120.  The strings that
reach `int` in the source are regex captures over the digit and
digit-comma alphabets with commas removed, so they are (possibly empty)
digit strings: `int` succeeds exactly on the nonempty ones. -/
def pyIntDigits (l : List Char) : Option Nat :=
  if !l.isEmpty && l.all Char.isDigit then some (digitsVal l) else none

/-- `replace(',', '')` applied to a token (lines 113-114). -/
def stripCommas (l : List Char) : List Char :=
  l.filter (fun c => !(c = ','))

/-- `min(len(weeks), len(shows), len(gross), len(attendance))` (line
104). -/
def minLen (w s g a : List (List Char)) : Nat :=
  Nat.min w.length (Nat.min s.length (Nat.min g.length a.length))

/-- One row of the in-memory table built by the loop at lines 110-125:
the dict appended at lines 116-122, with the week kept as matched text
and the three numeric fields already converted by `int`. -/
structure AsmRecord where
  week_ending : List Char
  gross_gross : Nat
  total_attendance : Nat
  number_of_shows : Nat
  scraped_date : List Char
deriving DecidableEq, Repr

/-- Combine the week text with the three `int` conversion outcomes of one
iteration: a row results only when all three conversions succeed. -/
def combineRow (wv : List Char) (og oa osh : Option Nat) :
    Option (List Char × Nat × Nat × Nat) :=
  match og, oa, osh with
  | some gv, some av, some nv => some (wv, gv, av, nv)
  | _, _, _ => none

/-- The fallible part of one loop iteration (lines 113-120): clean the
gross and attendance tokens, then convert the three numeric fields; any
`ValueError` aborts the iteration before a row is appended. -/
def tryRowFields (w s g a : List (List Char)) (i : Nat) :
    Option (List Char × Nat × Nat × Nat) :=
  let clean_gross := stripCommas (g.getD i [])
  let clean_attendance := stripCommas (a.getD i [])
  combineRow (w.getD i []) (pyIntDigits clean_gross)
    (pyIntDigits clean_attendance) (pyIntDigits (s.getD i []))

/-- The assembly loop (lines 110-125) over the listed positions: on
success append a row stamped with the next clock reading (the
`datetime.now().strftime(...)` call at line 121 runs once per appended
row); on `ValueError`, `continue` without consuming a clock reading. -/
def assembleGo (f : Nat → Option (List Char × Nat × Nat × Nat))
    (oracle : Nat → List Char) : List Nat → Nat → List AsmRecord
  | [], _ => []
  | i :: is, k =>
    match f i with
    | some (wv, gv, av, nv) =>
      ⟨wv, gv, av, nv, oracle k⟩ :: assembleGo f oracle is (k + 1)
    | none => assembleGo f oracle is k

/-- `data` after the loop `for i in range(min_length)` (lines 96-125). -/
def assembleData (w s g a : List (List Char)) (oracle : Nat → List Char) :
    List AsmRecord :=
  assembleGo (tryRowFields w s g a) oracle (List.range (minLen w s g a)) 0

/-- A calendar date as produced by `pd.to_datetime` (line 132). -/
structure PyDate where
  year : Nat
  month : Nat
  day : Nat
deriving DecidableEq, Repr

/-- Gregorian leap-year rule. -/
def isLeapYear (y : Nat) : Bool :=
  (y % 4 = 0 && !(y % 100 = 0)) || y % 400 = 0

/-- Days in a month of a given year. -/
def daysInMonth (y m : Nat) : Nat :=
  if m = 2 then (if isLeapYear y then 29 else 28)
  else if m = 4 ∨ m = 6 ∨ m = 9 ∨ m = 11 then 30
  else 31

/-- Chronological key of a date: lexicographic on year, month, day. -/
def dateKey (d : PyDate) : Nat :=
  d.year * 10000 + d.month * 100 + d.day

/-- Model of `pd.to_datetime` (line 132) on one `Week_Ending` string of
the shape `\d{1,2}/\d{1,2}/\d{4}`, following the dateutil resolution
that pandas applies with no format argument and the default
`dayfirst=False`: the first number is the month and the second the day,
unless the first number exceeds 12, in which case it is resolved as the
day and the second as the month (the documented day/month swap, a
`UserWarning` but not an error); the assignment is by magnitude only,
with no backtracking when the assigned date is invalid.  The resolved
date must be a valid calendar date within the `pandas.Timestamp` range
1677-09-21 to 2262-04-11; any other string raises, which the source
catches at line 135. -/
def pyParseDate (s : List Char) : Option PyDate :=
  let p1 := s.span Char.isDigit
  match p1.2 with
  | '/' :: r2 =>
    let p2 := r2.span Char.isDigit
    match p2.2 with
    | '/' :: ypart =>
      if (1 ≤ p1.1.length ∧ p1.1.length ≤ 2) ∧ (1 ≤ p2.1.length ∧ p2.1.length ≤ 2)
          ∧ ypart.length = 4 ∧ ypart.all Char.isDigit then
        let n1 := digitsVal p1.1
        let n2 := digitsVal p2.1
        let y := digitsVal ypart
        let m := if n1 ≤ 12 then n1 else n2
        let d := if n1 ≤ 12 then n2 else n1
        if (1 ≤ m ∧ m ≤ 12) ∧ (1 ≤ d ∧ d ≤ daysInMonth y m)
            ∧ 16770921 ≤ y * 10000 + m * 100 + d
            ∧ y * 10000 + m * 100 + d ≤ 22620411 then
          some ⟨y, m, d⟩
        else none
      else none
    | _ => none
  | _ => none

/-- The `Week_Ending` column after the optional conversion at line 132:
either the raw matched text (conversion failed or skipped) or a parsed
date. -/
inductive WeekVal where
  | str (s : List Char)
  | date (d : PyDate)
deriving DecidableEq, Repr

/-- One row of the returned table: like `AsmRecord` but with the
`Week_Ending` column possibly converted to a date. -/
structure FinalRecord where
  week_ending : WeekVal
  gross_gross : Nat
  total_attendance : Nat
  number_of_shows : Nat
  scraped_date : List Char
deriving DecidableEq, Repr

/-- Sort key used by `sort_values('Week_Ending', ...)` (line 134); only
rows whose week is a date are ever sorted. -/
def finKey (r : FinalRecord) : Nat :=
  match r.week_ending with
  | .date d => dateKey d
  | .str _ => 0

/-- Stable insertion of an element into a list ascending by key. -/
def insertAsc {α : Type} (key : α → Nat) (x : α) : List α → List α
  | [] => [x]
  | y :: ys => if key x ≤ key y then x :: y :: ys else y :: insertAsc key x ys

/-- Stable insertion sort ascending by key. -/
def insertionSortAsc {α : Type} (key : α → Nat) : List α → List α
  | [] => []
  | x :: xs => insertAsc key x (insertionSortAsc key xs)

/-- Model of `df.sort_values('Week_Ending', ascending=False)` (line 134)
following pandas `nargsort`: reverse the rows, argsort ascending, and
reverse the result, which yields descending order.  The underlying
argsort kernel is taken stable (numpy sorts short arrays by insertion
sort); with an unstable kernel the relative order of equal keys is
unspecified, which no theorem below relies on. -/
def pandasSortDesc {α : Type} (key : α → Nat) (l : List α) : List α :=
  (insertionSortAsc key l.reverse).reverse

/-- Row as returned when the date conversion is skipped: the week stays
the provided string. -/
def toStrRecord (r : AsmRecord) : FinalRecord :=
  ⟨.str r.week_ending, r.gross_gross, r.total_attendance,
    r.number_of_shows, r.scraped_date⟩

/-- Row after a successful `pd.to_datetime` conversion of the column
(line 132). -/
def toDateRecord (r : AsmRecord) : FinalRecord :=
  ⟨match pyParseDate r.week_ending with
    | some d => .date d
    | none => .str r.week_ending,
    r.gross_gross, r.total_attendance, r.number_of_shows, r.scraped_date⟩

/-- Lines 127-137: build the frame, and when it is nonempty try to
convert `Week_Ending` to dates and sort descending; if any date fails to
parse the exception is caught, a warning is printed (the returned flag),
and the frame is left as assembled.  Returns the rows and the
warning flag. -/
def finalizeRecords (data : List AsmRecord) : List FinalRecord × Bool :=
  if data.isEmpty then ([], false)
  else if data.all (fun r => (pyParseDate r.week_ending).isSome) then
    (pandasSortDesc finKey (data.map toDateRecord), false)
  else (data.map toStrRecord, true)

/-- The observable outcome of `scrape_weekly_show_data` on fetched text:
the returned rows, the content written to `debug_html.txt` when the
zero-match branch runs (lines 86-93), and whether the date-conversion
warning at line 136 was printed. -/
structure ScrapeResult where
  records : List FinalRecord
  debugDump : Option (List Char)
  dateWarning : Bool
deriving DecidableEq, Repr

/-- The extractor/assembler (lines 29-138) on the page's flattened text.
If all four series are empty, write the first 5000 characters of the
text to the diagnostic file and return no rows (lines 86-93); if the
minimum series length is zero, return no rows (lines 104-108); otherwise
run the assembly loop and the date conversion and sort. -/
def scrape_weekly_show_data (text : List Char) (oracle : Nat → List Char) :
    ScrapeResult :=
  let weeks := extractWeeks text
  let shows := extractShows text
  let gross := extractGross text
  let attendance := extractAttendance text
  if weeks.isEmpty && shows.isEmpty && gross.isEmpty && attendance.isEmpty then
    ⟨[], some (text.take 5000), false⟩
  else if minLen weeks shows gross attendance = 0 then
    ⟨[], none, false⟩
  else
    let p := finalizeRecords (assembleData weeks shows gross attendance oracle)
    ⟨p.1, none, p.2⟩

/-- The fields of a row other than the per-row timestamp. -/
def dropScraped (r : AsmRecord) : List Char × Nat × Nat × Nat :=
  (r.week_ending, r.gross_gross, r.total_attendance, r.number_of_shows)

/-- The fields of a returned row other than the per-row timestamp. -/
def dropScrapedFin (r : FinalRecord) : WeekVal × Nat × Nat × Nat :=
  (r.week_ending, r.gross_gross, r.total_attendance, r.number_of_shows)

theorem assembleGo_map_dropScraped (f : Nat → Option (List Char × Nat × Nat × Nat))
    (oracle : Nat → List Char) (l : List Nat) (k : Nat) :
    (assembleGo f oracle l k).map dropScraped = l.filterMap f := by
  induction l generalizing k with
  | nil => rfl
  | cons i is ih =>
    cases h : f i with
    | some t =>
      obtain ⟨wv, gv, av, nv⟩ := t
      simp [assembleGo, h, List.filterMap_cons, ih, dropScraped]
    | none => simp [assembleGo, h, List.filterMap_cons, ih]

theorem length_assembleGo (f : Nat → Option (List Char × Nat × Nat × Nat))
    (oracle : Nat → List Char) (l : List Nat) (k : Nat) :
    (assembleGo f oracle l k).length = (l.filterMap f).length := by
  have h := congrArg List.length (assembleGo_map_dropScraped f oracle l k)
  simpa using h

theorem length_filterMap_add_countP_none {α β : Type} (f : α → Option β) (l : List α) :
    (l.filterMap f).length + l.countP (fun x => (f x).isNone) = l.length := by
  induction l with
  | nil => rfl
  | cons x xs ih =>
    cases h : f x with
    | some b =>
      simp [List.filterMap_cons, h, List.countP_cons]
      omega
    | none =>
      simp [List.filterMap_cons, h, List.countP_cons]
      omega

theorem combineRow_eq_none_iff (wv : List Char) (og oa osh : Option Nat) :
    combineRow wv og oa osh = none ↔ (og = none ∨ oa = none ∨ osh = none) := by
  cases og <;> cases oa <;> cases osh <;> simp [combineRow]

theorem combineRow_isSome_iff (wv : List Char) (og oa osh : Option Nat) :
    (combineRow wv og oa osh).isSome ↔ (og.isSome ∧ oa.isSome ∧ osh.isSome) := by
  cases og <;> cases oa <;> cases osh <;> simp [combineRow]

theorem tryRowFields_eq_none_iff (w s g a : List (List Char)) (i : Nat) :
    tryRowFields w s g a i = none ↔
      (pyIntDigits (stripCommas (g.getD i [])) = none
        ∨ pyIntDigits (stripCommas (a.getD i [])) = none
        ∨ pyIntDigits (s.getD i []) = none) := by
  simp only [tryRowFields]
  exact combineRow_eq_none_iff _ _ _ _

theorem tryRowFields_isSome_iff (w s g a : List (List Char)) (i : Nat) :
    (tryRowFields w s g a i).isSome ↔
      ((pyIntDigits (stripCommas (g.getD i []))).isSome
        ∧ (pyIntDigits (stripCommas (a.getD i []))).isSome
        ∧ (pyIntDigits (s.getD i [])).isSome) := by
  simp only [tryRowFields]
  exact combineRow_isSome_iff _ _ _ _

/-- Week field of the converted-row tuple. -/
def convTupleDate (t : List Char × Nat × Nat × Nat) : WeekVal × Nat × Nat × Nat :=
  (match pyParseDate t.1 with
    | some d => WeekVal.date d
    | none => WeekVal.str t.1, t.2.1, t.2.2.1, t.2.2.2)

/-- Week field of the unconverted-row tuple. -/
def convTupleStr (t : List Char × Nat × Nat × Nat) : WeekVal × Nat × Nat × Nat :=
  (WeekVal.str t.1, t.2.1, t.2.2.1, t.2.2.2)

/-- Sort key on timestamp-free tuples. -/
def tupKey (t : WeekVal × Nat × Nat × Nat) : Nat :=
  match t.1 with
  | .date d => dateKey d
  | .str _ => 0

/-- The finalization step viewed on timestamp-free tuples. -/
def pureFinalize (l : List (List Char × Nat × Nat × Nat)) :
    List (WeekVal × Nat × Nat × Nat) :=
  if l.isEmpty then []
  else if l.all (fun t => (pyParseDate t.1).isSome) then
    pandasSortDesc tupKey (l.map convTupleDate)
  else l.map convTupleStr

theorem map_insertAsc {α β : Type} (keyA : α → Nat) (keyB : β → Nat) (h : α → β)
    (hk : ∀ x, keyB (h x) = keyA x) (x : α) (l : List α) :
    (insertAsc keyA x l).map h = insertAsc keyB (h x) (l.map h) := by
  induction l with
  | nil => rfl
  | cons y ys ih =>
    simp only [insertAsc, List.map_cons]
    by_cases hc : keyA x ≤ keyA y
    · rw [if_pos hc, if_pos (by rw [hk, hk]; exact hc)]
      simp
    · rw [if_neg hc, if_neg (by rw [hk, hk]; exact hc)]
      simp [ih]

theorem map_insertionSortAsc {α β : Type} (keyA : α → Nat) (keyB : β → Nat) (h : α → β)
    (hk : ∀ x, keyB (h x) = keyA x) (l : List α) :
    (insertionSortAsc keyA l).map h = insertionSortAsc keyB (l.map h) := by
  induction l with
  | nil => rfl
  | cons x xs ih =>
    simp only [insertionSortAsc, List.map_cons]
    rw [map_insertAsc keyA keyB h hk, ih]

theorem map_pandasSortDesc {α β : Type} (keyA : α → Nat) (keyB : β → Nat) (h : α → β)
    (hk : ∀ x, keyB (h x) = keyA x) (l : List α) :
    (pandasSortDesc keyA l).map h = pandasSortDesc keyB (l.map h) := by
  unfold pandasSortDesc
  rw [List.map_reverse, map_insertionSortAsc keyA keyB h hk, List.map_reverse]

theorem isEmpty_map_dropScraped (data : List AsmRecord) :
    (data.map dropScraped).isEmpty = data.isEmpty := by
  cases data <;> rfl

theorem all_parse_map_dropScraped (data : List AsmRecord) :
    (data.map dropScraped).all (fun t => (pyParseDate t.1).isSome)
      = data.all (fun r => (pyParseDate r.week_ending).isSome) := by
  induction data with
  | nil => rfl
  | cons r rs ih => simp only [List.map_cons, List.all_cons, ih]; rfl

theorem map_dropScrapedFin_finalize (data : List AsmRecord) :
    ((finalizeRecords data).1).map dropScrapedFin = pureFinalize (data.map dropScraped) := by
  unfold finalizeRecords pureFinalize
  rw [isEmpty_map_dropScraped, all_parse_map_dropScraped]
  by_cases h1 : data.isEmpty
  · simp [h1]
  · rw [if_neg h1, if_neg h1]
    by_cases h2 : data.all (fun r => (pyParseDate r.week_ending).isSome)
    · rw [if_pos h2, if_pos h2]
      have hk : ∀ x : FinalRecord, tupKey (dropScrapedFin x) = finKey x := by
        intro x; rfl
      rw [map_pandasSortDesc finKey tupKey dropScrapedFin hk]
      have : (data.map toDateRecord).map dropScrapedFin
          = (data.map dropScraped).map convTupleDate := by
        simp only [List.map_map]
        rfl
      rw [this]
    · rw [if_neg h2, if_neg h2]
      simp only [List.map_map]
      rfl

theorem length_insertAsc {α : Type} (key : α → Nat) (x : α) (l : List α) :
    (insertAsc key x l).length = l.length + 1 := by
  induction l with
  | nil => rfl
  | cons y ys ih =>
    simp only [insertAsc]
    by_cases hc : key x ≤ key y
    · rw [if_pos hc]; rfl
    · rw [if_neg hc]; simp only [List.length_cons, ih]

theorem length_insertionSortAsc {α : Type} (key : α → Nat) (l : List α) :
    (insertionSortAsc key l).length = l.length := by
  induction l with
  | nil => rfl
  | cons x xs ih =>
    simp only [insertionSortAsc, List.length_cons]
    rw [length_insertAsc, ih]

theorem length_pandasSortDesc {α : Type} (key : α → Nat) (l : List α) :
    (pandasSortDesc key l).length = l.length := by
  unfold pandasSortDesc
  rw [List.length_reverse, length_insertionSortAsc, List.length_reverse]

theorem length_finalizeRecords (data : List AsmRecord) :
    ((finalizeRecords data).1).length = data.length := by
  unfold finalizeRecords
  by_cases h1 : data.isEmpty = true
  · rw [if_pos h1, List.isEmpty_iff.mp h1]; rfl
  · rw [if_neg h1]
    by_cases h2 : data.all (fun r => (pyParseDate r.week_ending).isSome) = true
    · rw [if_pos h2]
      show (pandasSortDesc finKey (data.map toDateRecord)).length = data.length
      rw [length_pandasSortDesc, List.length_map]
    · rw [if_neg h2]
      show (data.map toStrRecord).length = data.length
      rw [List.length_map]

theorem mem_insertAsc {α : Type} (key : α → Nat) (x y : α) (l : List α) :
    y ∈ insertAsc key x l ↔ y = x ∨ y ∈ l := by
  induction l with
  | nil => simp [insertAsc]
  | cons z zs ih =>
    simp only [insertAsc]
    by_cases hc : key x ≤ key z
    · rw [if_pos hc]; simp
    · rw [if_neg hc]
      simp only [List.mem_cons, ih]
      tauto

theorem mem_insertionSortAsc {α : Type} (key : α → Nat) (y : α) (l : List α) :
    y ∈ insertionSortAsc key l ↔ y ∈ l := by
  induction l with
  | nil => simp [insertionSortAsc]
  | cons x xs ih =>
    simp only [insertionSortAsc, mem_insertAsc, ih, List.mem_cons]

theorem mem_pandasSortDesc {α : Type} (key : α → Nat) (y : α) (l : List α) :
    y ∈ pandasSortDesc key l ↔ y ∈ l := by
  unfold pandasSortDesc
  rw [List.mem_reverse, mem_insertionSortAsc, List.mem_reverse]

theorem scraped_date_mem_finalizeRecords (data : List AsmRecord) (r : FinalRecord)
    (hr : r ∈ (finalizeRecords data).1) :
    ∃ r0 ∈ data, r.scraped_date = r0.scraped_date := by
  unfold finalizeRecords at hr
  by_cases h1 : data.isEmpty = true
  · rw [if_pos h1] at hr
    simp at hr
  · rw [if_neg h1] at hr
    by_cases h2 : data.all (fun r => (pyParseDate r.week_ending).isSome) = true
    · rw [if_pos h2] at hr
      replace hr : r ∈ data.map toDateRecord := (mem_pandasSortDesc _ _ _).mp hr
      obtain ⟨r0, hr0, hh⟩ := List.mem_map.mp hr
      exact ⟨r0, hr0, by rw [← hh]; rfl⟩
    · rw [if_neg h2] at hr
      replace hr : r ∈ data.map toStrRecord := hr
      obtain ⟨r0, hr0, hh⟩ := List.mem_map.mp hr
      exact ⟨r0, hr0, by rw [← hh]; rfl⟩

theorem scraped_date_assembleGo_const (f : Nat → Option (List Char × Nat × Nat × Nat))
    (c : List Char) (l : List Nat) (k : Nat) :
    ∀ r ∈ assembleGo f (fun _ => c) l k, r.scraped_date = c := by
  induction l generalizing k with
  | nil => intro r hr; simp [assembleGo] at hr
  | cons i is ih =>
    intro r hr
    simp only [assembleGo] at hr
    cases h : f i with
    | some t =>
      obtain ⟨wv, gv, av, nv⟩ := t
      rw [h] at hr
      rcases List.mem_cons.mp hr with h1 | h1
      · rw [h1]
      · exact ih (k + 1) r h1
    | none =>
      rw [h] at hr
      exact ih k r hr

theorem length_filterMap_of_all_isSome {α β : Type} (f : α → Option β) (l : List α)
    (h : ∀ x ∈ l, (f x).isSome) : (l.filterMap f).length = l.length := by
  induction l with
  | nil => rfl
  | cons x xs ih =>
    obtain ⟨b, hb⟩ := Option.isSome_iff_exists.mp (h x (List.mem_cons_self x xs))
    simp only [List.filterMap_cons, hb, List.length_cons]
    rw [ih (fun y hy => h y (List.mem_cons_of_mem x hy))]

theorem getD_mem_of_lt {α : Type} (l : List α) (i : Nat) (d : α) (h : i < l.length) :
    l.getD i d ∈ l := by
  rw [List.getD_eq_getElem l d h]
  exact List.getElem_mem h

theorem lt_minLen_iff (w s g a : List (List Char)) (i : Nat) :
    i < minLen w s g a ↔
      (i < w.length ∧ i < s.length ∧ i < g.length ∧ i < a.length) := by
  unfold minLen
  rw [Nat.lt_min, Nat.lt_min, Nat.lt_min]

theorem minLen_le_weeks (w s g a : List (List Char)) : minLen w s g a ≤ w.length :=
  Nat.min_le_left _ _

theorem minLen_eq_zero_of_empty (w s g a : List (List Char))
    (h : w = [] ∨ s = [] ∨ g = [] ∨ a = []) : minLen w s g a = 0 := by
  unfold minLen
  rcases h with h | h | h | h <;> rw [h] <;> apply Nat.le_zero.mp
  · exact Nat.min_le_left _ _
  · exact Nat.le_trans (Nat.min_le_right _ _) (Nat.min_le_left _ _)
  · exact Nat.le_trans (Nat.min_le_right _ _)
      (Nat.le_trans (Nat.min_le_right _ _) (Nat.min_le_left _ _))
  · exact Nat.le_trans (Nat.min_le_right _ _)
      (Nat.le_trans (Nat.min_le_right _ _) (Nat.min_le_right _ _))

/-- The branch structure of `scrape_weekly_show_data` stated as an
equation, for case analysis in the proofs below. -/
theorem scrape_spec (text : List Char) (oracle : Nat → List Char) :
    scrape_weekly_show_data text oracle =
      if ((extractWeeks text).isEmpty && (extractShows text).isEmpty
          && (extractGross text).isEmpty && (extractAttendance text).isEmpty) then
        ⟨[], some (text.take 5000), false⟩
      else if minLen (extractWeeks text) (extractShows text) (extractGross text)
          (extractAttendance text) = 0 then
        ⟨[], none, false⟩
      else
        ⟨(finalizeRecords (assembleData (extractWeeks text) (extractShows text)
            (extractGross text) (extractAttendance text) oracle)).1, none,
          (finalizeRecords (assembleData (extractWeeks text) (extractShows text)
            (extractGross text) (extractAttendance text) oracle)).2⟩ := rfl

theorem length_assembleData_of_all_parse (w s g a : List (List Char))
    (oracle : Nat → List Char)
    (hps : ∀ t ∈ s, (pyIntDigits t).isSome)
    (hpg : ∀ t ∈ g, (pyIntDigits (stripCommas t)).isSome)
    (hpa : ∀ t ∈ a, (pyIntDigits (stripCommas t)).isSome) :
    (assembleData w s g a oracle).length = minLen w s g a := by
  unfold assembleData
  rw [length_assembleGo]
  have hall : ∀ i ∈ List.range (minLen w s g a), (tryRowFields w s g a i).isSome := by
    intro i hi
    rw [List.mem_range, lt_minLen_iff] at hi
    rw [tryRowFields_isSome_iff]
    exact ⟨hpg _ (getD_mem_of_lt g i [] hi.2.2.1),
      hpa _ (getD_mem_of_lt a i [] hi.2.2.2),
      hps _ (getD_mem_of_lt s i [] hi.2.1)⟩
  rw [length_filterMap_of_all_isSome _ _ hall, List.length_range]

/-- C1: for input text whose four extracted series are non-empty and
whose numeric tokens all convert successfully, the assembled record list
has length exactly `min(len(weeks), len(shows), len(gross),
len(attendance))`; in particular, when the four series have equal length
the count is that common length, and excess entries of longer series are
discarded. -/
theorem extracted_record_count_eq_min (text : List Char) (oracle : Nat → List Char)
    (hw : extractWeeks text ≠ []) (hs : extractShows text ≠ [])
    (hg : extractGross text ≠ []) (ha : extractAttendance text ≠ [])
    (hps : ∀ t ∈ extractShows text, (pyIntDigits t).isSome)
    (hpg : ∀ t ∈ extractGross text, (pyIntDigits (stripCommas t)).isSome)
    (hpa : ∀ t ∈ extractAttendance text, (pyIntDigits (stripCommas t)).isSome) :
    (assembleData (extractWeeks text) (extractShows text) (extractGross text)
        (extractAttendance text) oracle).length
      = minLen (extractWeeks text) (extractShows text) (extractGross text)
          (extractAttendance text) :=
  length_assembleData_of_all_parse _ _ _ _ oracle hps hpg hpa

/-- Text for the witness of C1: one full block plus one extra gross
token, so the series lengths are 1, 1, 2, 1 and the minimum is 1. -/
def textC1 : List Char :=
  ("Week Ending: 1/2/2024 Number of Shows: 5 Gross Gross: 100 "
    ++ "Total Attendance: 200 Gross Gross: 300").toList

set_option maxRecDepth 20000 in
theorem extracted_record_count_eq_min_witness :
    (assembleData (extractWeeks textC1) (extractShows textC1) (extractGross textC1)
        (extractAttendance textC1) (fun _ => [])).length
      = minLen (extractWeeks textC1) (extractShows textC1) (extractGross textC1)
          (extractAttendance textC1) :=
  extracted_record_count_eq_min textC1 (fun _ => []) (by decide) (by decide)
    (by decide) (by decide) (by decide) (by decide) (by decide)

/-- C2: the assembled records are exactly the rows of the retained
positions whose gross, attendance and shows tokens are all numeric after
comma stripping, in position order; a failing position drops only
itself, so the record count is the minimum series length minus the
number of failing positions, and a position fails exactly when one of
its three numeric tokens does not convert. -/
theorem assemble_drops_exactly_failing_positions (w s g a : List (List Char))
    (oracle : Nat → List Char) :
    ((assembleData w s g a oracle).map dropScraped
        = (List.range (minLen w s g a)).filterMap (tryRowFields w s g a))
    ∧ ((assembleData w s g a oracle).length
        = minLen w s g a
          - (List.range (minLen w s g a)).countP
              (fun i => (tryRowFields w s g a i).isNone))
    ∧ (∀ i, tryRowFields w s g a i = none ↔
        (pyIntDigits (stripCommas (g.getD i [])) = none
          ∨ pyIntDigits (stripCommas (a.getD i [])) = none
          ∨ pyIntDigits (s.getD i []) = none)) := by
  refine ⟨assembleGo_map_dropScraped _ _ _ _, ?_, tryRowFields_eq_none_iff w s g a⟩
  have h := length_filterMap_add_countP_none (tryRowFields w s g a)
    (List.range (minLen w s g a))
  rw [List.length_range] at h
  unfold assembleData
  rw [length_assembleGo]
  omega

/-- Text with two complete blocks, for the counterexample of C4. -/
def textC4 : List Char :=
  ("Week Ending: 01/01/2024 Number of Shows: 8 Gross Gross: $1,234,567 "
    ++ "Total Attendance: 45,678 Week Ending: 01/08/2024 Number of Shows: 7 "
    ++ "Gross Gross: $2,000,000 Total Attendance: 40,000").toList

/-- Clock whose first two readings differ, as `datetime.now()` may when
the assembly loop crosses a second boundary. -/
def clockC4 : Nat → List Char :=
  fun k => if k = 0 then ("2024-01-10 09:59:59").toList else ("2024-01-10 10:00:00").toList

set_option maxRecDepth 40000 in
/-- C4 counterexample: a run whose two `datetime.now()` readings format
differently produces two records whose `Scraped_Date` values differ, so
the field is not the same across all records of the run. -/
theorem scraped_date_not_constant_cex :
    2 ≤ (scrape_weekly_show_data textC4 clockC4).records.length
    ∧ ¬(∀ r ∈ (scrape_weekly_show_data textC4 clockC4).records,
        ∀ r2 ∈ (scrape_weekly_show_data textC4 clockC4).records,
        r.scraped_date = r2.scraped_date) := by
  constructor
  · decide
  · decide

/-- C4 as amended: each record's `Scraped_Date` is the clock reading
taken when that record is appended, so all records of a run carry the
same value exactly when every reading during the loop formats to the
same string; under a constant clock every record carries that value. -/
theorem scraped_date_constant_under_constant_clock (text : List Char) (c : List Char) :
    ∀ r ∈ (scrape_weekly_show_data text (fun _ => c)).records, r.scraped_date = c := by
  intro r hr
  rw [scrape_spec] at hr
  by_cases h1 : ((extractWeeks text).isEmpty && (extractShows text).isEmpty
      && (extractGross text).isEmpty && (extractAttendance text).isEmpty) = true
  · rw [if_pos h1] at hr
    simp at hr
  · rw [if_neg h1] at hr
    by_cases h2 : minLen (extractWeeks text) (extractShows text) (extractGross text)
        (extractAttendance text) = 0
    · rw [if_pos h2] at hr
      simp at hr
    · rw [if_neg h2] at hr
      replace hr : r ∈ (finalizeRecords (assembleData (extractWeeks text)
          (extractShows text) (extractGross text) (extractAttendance text)
          (fun _ => c))).1 := hr
      obtain ⟨r0, hr0, hsc⟩ := scraped_date_mem_finalizeRecords _ r hr
      rw [hsc]
      exact scraped_date_assembleGo_const _ c _ 0 r0 hr0

/-- Text with one full block, for the witness of C4's amended claim. -/
def textC4w : List Char :=
  ("Week Ending: 03/04/2021 Number of Shows: 9 Gross Gross: $10 "
    ++ "Total Attendance: 20").toList

set_option maxRecDepth 20000 in
theorem scraped_date_constant_witness :
    (((scrape_weekly_show_data textC4w
          (fun _ => ("2021-03-05 12:00:00").toList)).records.headD
        ⟨WeekVal.str [], 0, 0, 0, []⟩).scraped_date)
      = ("2021-03-05 12:00:00").toList :=
  scraped_date_constant_under_constant_clock textC4w
    (("2021-03-05 12:00:00").toList) _ (by decide)

/-- Text whose week token has the date shape but is not a real date, for
the counterexample of C5. -/
def textC5 : List Char :=
  ("Week Ending: 99/99/2024 Number of Shows: 8 Gross Gross: $1 "
    ++ "Total Attendance: 2").toList

/-- C5 counterexample: a position whose week token fails to parse as a
date is not dropped; the run still constructs its record, keeping the
week as the unparsed string, so construction is not conditional on the
week field parsing to a date. -/
theorem record_kept_with_unparsed_date_cex :
    (scrape_weekly_show_data textC5 (fun _ => ("T").toList)).records
        = [⟨WeekVal.str (("99/99/2024").toList), 1, 2, 8, ("T").toList⟩]
    ∧ pyParseDate (("99/99/2024").toList) = none := by
  constructor
  · decide
  · decide

/-- C5 as amended: a record is constructed for a position exactly when
the three numeric fields of that position convert (the week field never
gates construction), and the date conversion step afterwards drops no
record: the returned row count always equals the assembled row count. -/
theorem assembly_gated_by_numeric_fields_only (text : List Char)
    (oracle : Nat → List Char) :
    ((scrape_weekly_show_data text oracle).records.length
        = (assembleData (extractWeeks text) (extractShows text) (extractGross text)
            (extractAttendance text) oracle).length)
    ∧ (∀ i, (tryRowFields (extractWeeks text) (extractShows text) (extractGross text)
          (extractAttendance text) i).isSome ↔
        ((pyIntDigits (stripCommas ((extractGross text).getD i []))).isSome
          ∧ (pyIntDigits (stripCommas ((extractAttendance text).getD i []))).isSome
          ∧ (pyIntDigits ((extractShows text).getD i [])).isSome)) := by
  constructor
  · rw [scrape_spec]
    by_cases h1 : ((extractWeeks text).isEmpty && (extractShows text).isEmpty
        && (extractGross text).isEmpty && (extractAttendance text).isEmpty) = true
    · rw [if_pos h1]
      have hw : extractWeeks text = [] := by
        rw [Bool.and_eq_true, Bool.and_eq_true, Bool.and_eq_true] at h1
        exact List.isEmpty_iff.mp h1.1.1.1
      have h0 : minLen (extractWeeks text) (extractShows text) (extractGross text)
          (extractAttendance text) = 0 :=
        minLen_eq_zero_of_empty _ _ _ _ (Or.inl hw)
      show ([] : List FinalRecord).length = _
      unfold assembleData
      rw [h0]
      rfl
    · rw [if_neg h1]
      by_cases h2 : minLen (extractWeeks text) (extractShows text) (extractGross text)
          (extractAttendance text) = 0
      · rw [if_pos h2]
        show ([] : List FinalRecord).length = _
        unfold assembleData
        rw [h2]
        rfl
      · rw [if_neg h2]
        exact length_finalizeRecords _
  · intro i
    exact tryRowFields_isSome_iff _ _ _ _ i

/-- The concrete scenario text of C6, containing each of the four
labelled values exactly once. -/
def textC6 : List Char :=
  ("Week Ending: 05/12/2024 Number of Shows: 8 Gross Gross: $1,234,567 "
    ++ "Total Attendance: 45,678").toList

set_option maxRecDepth 40000 in
/-- C6: on the concrete text containing one occurrence each of
`Week Ending: 05/12/2024`, `Number of Shows: 8`, `Gross Gross:
$1,234,567` and `Total Attendance: 45,678`, the run returns exactly one
record with week 2024-05-12, gross 1234567, attendance 45678 and 8
shows. -/
theorem single_block_concrete_scenario :
    (scrape_weekly_show_data textC6 (fun _ => ("2024-05-13 10:00:00").toList)).records
      = [⟨WeekVal.date ⟨2024, 5, 12⟩, 1234567, 45678, 8,
          ("2024-05-13 10:00:00").toList⟩] := by
  decide

/-- C7: the diagnostic dump is written exactly when all four extraction
series are empty, and in that case the run returns no records and dumps
the first 5000 characters of the page text. -/
theorem debug_dump_iff_all_series_empty (text : List Char) (oracle : Nat → List Char) :
    (((extractWeeks text).isEmpty && (extractShows text).isEmpty
        && (extractGross text).isEmpty && (extractAttendance text).isEmpty) = true
      → (scrape_weekly_show_data text oracle).records = []
        ∧ (scrape_weekly_show_data text oracle).debugDump = some (text.take 5000))
    ∧ ((scrape_weekly_show_data text oracle).debugDump.isSome
      → ((extractWeeks text).isEmpty && (extractShows text).isEmpty
          && (extractGross text).isEmpty && (extractAttendance text).isEmpty) = true) := by
  constructor
  · intro h
    rw [scrape_spec, if_pos h]
    exact ⟨rfl, rfl⟩
  · intro h
    by_contra hne
    rw [scrape_spec, if_neg hne] at h
    by_cases h2 : minLen (extractWeeks text) (extractShows text) (extractGross text)
        (extractAttendance text) = 0
    · rw [if_pos h2] at h
      simp at h
    · rw [if_neg h2] at h
      simp at h

/-- Text containing none of the four labels, for the witness of C7. -/
def textC7 : List Char :=
  ("Broadway grosses were unavailable this week; check back later.").toList

set_option maxRecDepth 40000 in
theorem debug_dump_witness :
    (scrape_weekly_show_data textC7 (fun _ => [])).records = []
    ∧ (scrape_weekly_show_data textC7 (fun _ => [])).debugDump
        = some (textC7.take 5000) :=
  (debug_dump_iff_all_series_empty textC7 (fun _ => [])).1 (by decide)

/-- C8: when some assembled record's week string fails to parse as a
date, the date conversion and the sort are skipped, the week values are
left as the provided strings, the run returns the full assembled
sequence in its original order, and the warning is reported. -/
theorem invalid_date_skips_sort (text : List Char) (oracle : Nat → List Char)
    (h : ∃ r ∈ assembleData (extractWeeks text) (extractShows text) (extractGross text)
        (extractAttendance text) oracle, pyParseDate r.week_ending = none) :
    (scrape_weekly_show_data text oracle).records
        = (assembleData (extractWeeks text) (extractShows text) (extractGross text)
            (extractAttendance text) oracle).map toStrRecord
    ∧ (scrape_weekly_show_data text oracle).dateWarning = true := by
  obtain ⟨r0, hr0, hbad⟩ := h
  have hne : ¬((assembleData (extractWeeks text) (extractShows text) (extractGross text)
      (extractAttendance text) oracle).isEmpty = true) := by
    intro hh
    rw [List.isEmpty_iff] at hh
    rw [hh] at hr0
    simp at hr0
  have hnall : ¬((assembleData (extractWeeks text) (extractShows text) (extractGross text)
      (extractAttendance text) oracle).all
        (fun r => (pyParseDate r.week_ending).isSome) = true) := by
    intro hall
    have := List.all_eq_true.mp hall r0 hr0
    rw [hbad] at this
    simp at this
  have hmin : ¬(minLen (extractWeeks text) (extractShows text) (extractGross text)
      (extractAttendance text) = 0) := by
    intro h0
    apply hne
    unfold assembleData
    rw [h0]
    rfl
  have hcond : ¬(((extractWeeks text).isEmpty && (extractShows text).isEmpty
      && (extractGross text).isEmpty && (extractAttendance text).isEmpty) = true) := by
    intro hc
    apply hmin
    rw [Bool.and_eq_true, Bool.and_eq_true, Bool.and_eq_true] at hc
    exact minLen_eq_zero_of_empty _ _ _ _ (Or.inl (List.isEmpty_iff.mp hc.1.1.1))
  rw [scrape_spec, if_neg hcond, if_neg hmin]
  show ((finalizeRecords _).1 = _) ∧ ((finalizeRecords _).2 = true)
  unfold finalizeRecords
  rw [if_neg hne, if_neg hnall]
  exact ⟨rfl, rfl⟩

/-- Text whose only week token is the impossible date February 30, for
the witness of C8. -/
def textC8 : List Char :=
  ("Week Ending: 02/30/2024 Number of Shows: 3 Gross Gross: 5 "
    ++ "Total Attendance: 6").toList

set_option maxRecDepth 40000 in
theorem invalid_date_skips_sort_witness :
    (∃ r ∈ assembleData (extractWeeks textC8) (extractShows textC8)
        (extractGross textC8) (extractAttendance textC8) (fun _ => ("T").toList),
      pyParseDate r.week_ending = none)
    ∧ ((scrape_weekly_show_data textC8 (fun _ => ("T").toList)).records
        = (assembleData (extractWeeks textC8) (extractShows textC8)
            (extractGross textC8) (extractAttendance textC8)
            (fun _ => ("T").toList)).map toStrRecord
      ∧ (scrape_weekly_show_data textC8 (fun _ => ("T").toList)).dateWarning = true) :=
  ⟨by decide, invalid_date_skips_sort textC8 (fun _ => ("T").toList) (by decide)⟩

/-- C9: two runs on the same text agree on every record field except
`Scraped_Date`: the per-field projections that drop the timestamp are
identical lists, in the same order, whatever the two clocks return. -/
theorem rerun_agrees_except_scraped_date (text : List Char)
    (o1 o2 : Nat → List Char) :
    ((scrape_weekly_show_data text o1).records).map dropScrapedFin
      = ((scrape_weekly_show_data text o2).records).map dropScrapedFin := by
  rw [scrape_spec text o1, scrape_spec text o2]
  by_cases h1 : ((extractWeeks text).isEmpty && (extractShows text).isEmpty
      && (extractGross text).isEmpty && (extractAttendance text).isEmpty) = true
  · rw [if_pos h1, if_pos h1]
  · rw [if_neg h1, if_neg h1]
    by_cases h2 : minLen (extractWeeks text) (extractShows text) (extractGross text)
        (extractAttendance text) = 0
    · rw [if_pos h2, if_pos h2]
    · rw [if_neg h2, if_neg h2]
      show ((finalizeRecords _).1).map dropScrapedFin
        = ((finalizeRecords _).1).map dropScrapedFin
      rw [map_dropScrapedFin_finalize, map_dropScrapedFin_finalize]
      unfold assembleData
      rw [assembleGo_map_dropScraped, assembleGo_map_dropScraped]

/-- C10: when some series is nonempty but some series is empty (so the
minimum length is zero), the run returns no records and does not write
the diagnostic dump. -/
theorem empty_series_no_debug_dump (text : List Char) (oracle : Nat → List Char)
    (hne : extractWeeks text ≠ [] ∨ extractShows text ≠ []
      ∨ extractGross text ≠ [] ∨ extractAttendance text ≠ [])
    (hemp : extractWeeks text = [] ∨ extractShows text = []
      ∨ extractGross text = [] ∨ extractAttendance text = []) :
    (scrape_weekly_show_data text oracle).records = []
    ∧ (scrape_weekly_show_data text oracle).debugDump = none := by
  have hcond : ¬(((extractWeeks text).isEmpty && (extractShows text).isEmpty
      && (extractGross text).isEmpty && (extractAttendance text).isEmpty) = true) := by
    intro hc
    rw [Bool.and_eq_true, Bool.and_eq_true, Bool.and_eq_true] at hc
    rcases hne with h | h | h | h
    · exact h (List.isEmpty_iff.mp hc.1.1.1)
    · exact h (List.isEmpty_iff.mp hc.1.1.2)
    · exact h (List.isEmpty_iff.mp hc.1.2)
    · exact h (List.isEmpty_iff.mp hc.2)
  have h0 : minLen (extractWeeks text) (extractShows text) (extractGross text)
      (extractAttendance text) = 0 :=
    minLen_eq_zero_of_empty _ _ _ _ hemp
  rw [scrape_spec, if_neg hcond, if_pos h0]
  exact ⟨rfl, rfl⟩

/-- Text containing only a week block, for the witness of C10. -/
def textC10 : List Char :=
  ("Week Ending: 01/01/2024 with no other figures reported").toList

set_option maxRecDepth 40000 in
theorem empty_series_no_debug_dump_witness :
    (extractWeeks textC10 ≠ [] ∧ extractShows textC10 = [])
    ∧ ((scrape_weekly_show_data textC10 (fun _ => [])).records = []
      ∧ (scrape_weekly_show_data textC10 (fun _ => [])).debugDump = none) :=
  ⟨by decide, empty_series_no_debug_dump textC10 (fun _ => [])
    (Or.inl (by decide)) (Or.inr (Or.inl (by decide)))⟩
